import Mathlib

/-
Verification of the dummy-data prompt generator
(src/scripts/dummy_data/generate.py) against its specification.

The Python program is shallowly embedded:
  * strings are Lean `String`s (lists of characters);
  * Python dicts (insertion-ordered, unique keys) are association lists
    `List (key × value)` with `dictUpd` implementing `d[k] = v`
    (update-in-place keeps the original position, otherwise append);
  * the dynamic `str | Dict[str, str]` placeholder value becomes the
    tagged type `PValue` (`scalar` / `multi`);
  * the read-only source directories `golden/`, `includes/`, `prompts/`
    (read through `fetch_folder`) are abstracted as functions
    `String → Option PValue` in `Stores` (a name maps to a file's text,
    a folder of files, or nothing);
  * the mutable filesystem under `target/` (run directories, the
    `_info/prompts` copies and the `_latest` symlinks) is the explicit
    state `RState`, threaded through every call; `print` calls append to
    `RState.log`;
  * the external `llm` subprocess is the abstract function
    `Stores.llm : String → Option String` (`none` = non-zero exit);
  * Python exceptions and `sys.exit` are `Except String`;
  * the unbounded recursion of `compile_prompt` / `fetch_placeholder` /
    `fetch_prompt` / `execute_prompt` is given a fuel parameter; every
    call decreases it, and running out yields the distinguished error
    `outOfFuel`, which no genuine program path produces;
  * Python's process-seeded `hash` builtin (used only in
    `name_for_variation`'s over-32-characters fallback) is an explicit
    parameter `ph : String → Nat`.
-/

/-! ## Dictionaries (Python `dict` as insertion-ordered association lists) -/

/-- `d[k]` as an `Option`. -/
def lookupD {κ α : Type} [DecidableEq κ] : List (κ × α) → κ → Option α
  | [], _ => none
  | (k1, v) :: t, k => if k1 = k then some v else lookupD t k

/-- Python `d[k] = v`: update in place if the key exists (keeping its
position), otherwise append at the end. -/
def dictUpd {κ α : Type} [DecidableEq κ] : List (κ × α) → κ → α → List (κ × α)
  | [], k, v => [(k, v)]
  | (k1, v1) :: t, k, v => if k1 = k then (k, v) :: t else (k1, v1) :: dictUpd t k v

/-- `k in d`. -/
def dictMem {κ α : Type} [DecidableEq κ] (m : List (κ × α)) (k : κ) : Bool :=
  (lookupD m k).isSome

/-! ## Small Python string helpers -/

/-- Python `\s` for the ASCII range (the only whitespace the program meets). -/
def pyIsSpace (c : Char) : Bool :=
  c = ' ' ∨ c = '\t' ∨ c = '\n' ∨ c = '\r' ∨ c = '\x0b' ∨ c = '\x0c'

/-- `str.strip()`. -/
def pyStrip (l : List Char) : List Char :=
  (((l.dropWhile pyIsSpace).reverse).dropWhile pyIsSpace).reverse

/-- `str.split(":")`. -/
def splitColon : List Char → List (List Char)
  | [] => [[]]
  | ':' :: t => [] :: splitColon t
  | c :: t =>
    match splitColon t with
    | [] => [[c]]
    | h :: r => (c :: h) :: r

/-- The characters Python `str.splitlines` breaks on. -/
def isLineBreak (c : Char) : Bool :=
  c = '\n' ∨ c = '\r' ∨ c = '\x0b' ∨ c = '\x0c' ∨ c = '\x1c' ∨ c = '\x1d' ∨
  c = '\x1e' ∨ c = Char.ofNat 0x85 ∨ c = Char.ofNat 0x2028 ∨ c = Char.ofNat 0x2029

/-- `str.splitlines()` (an accumulator holds the current line, reversed). -/
def pySplitlinesAux : List Char → List Char → List String
  | [], [] => []
  | [], acc => [⟨acc.reverse⟩]
  | '\r' :: '\n' :: t, acc => (⟨acc.reverse⟩ : String) :: pySplitlinesAux t []
  | c :: t, acc =>
    if isLineBreak c then (⟨acc.reverse⟩ : String) :: pySplitlinesAux t []
    else pySplitlinesAux t (c :: acc)

def pySplitlines (s : String) : List String := pySplitlinesAux s.data []

/-- A single quote character (written by code point to keep it out of
string literals). -/
def sqChar : Char := Char.ofNat 39

/-- Python's `repr` of a list of strings, e.g. f"{['A', 'B']}".
(Quote-escaping inside the names is not modelled; the program's
placeholder names never contain quotes.) -/
def pyListRepr (l : List String) : String :=
  "[" ++ String.intercalate ", " (l.map (fun s => String.singleton sqChar ++ s ++ String.singleton sqChar)) ++ "]"

/-! ## Placeholder values -/

/-- `PlaceholderValue : TypeAlias = Union[str, Dict[str, str]]`. -/
inductive PValue where
  | scalar (s : String)
  | multi (m : List (String × String))
deriving DecidableEq

deriving instance DecidableEq for Except

/-- Python truthiness of a `PlaceholderValue`: `""` and `{}` are falsy. -/
def pyTruthy : PValue → Bool
  | .scalar s => s ≠ ""
  | .multi m => m ≠ []

/-- Python truthiness of an `Optional[PlaceholderValue]` (`None` is falsy). -/
def pyTruthyO : Option PValue → Bool
  | none => false
  | some v => pyTruthy v

/-! ## The placeholder scanner: `re.findall(r"\$\x7b\s*([a-zA-Z0-9_:]+)\s*\x7d", raw_prompt)`

Implemented as a character-level automaton that is faithful to the
regex engine's scan: at every position a match of
dollar, open brace, optional whitespace, a nonempty run of
name-class characters, optional whitespace, close brace is attempted;
on failure the scan resumes one character further.  None of the
characters a partial match consumes (brace, whitespace, name class)
can begin a new match, so reprocessing only the failing character is
exact. -/

/-- The regex class `[a-zA-Z0-9_:]`. -/
def isNameChar (c : Char) : Bool :=
  ('a' ≤ c ∧ c ≤ 'z') ∨ ('A' ≤ c ∧ c ≤ 'Z') ∨ ('0' ≤ c ∧ c ≤ '9') ∨ c = '_' ∨ c = ':'

inductive ScanState where
  | outside
  | dollar
  | ws1
  | name (acc : List Char)
  | ws2 (acc : List Char)

def scanAux : ScanState → List Char → List String
  | _, [] => []
  | .outside, c :: cs =>
    if c = '$' then scanAux .dollar cs else scanAux .outside cs
  | .dollar, c :: cs =>
    if c = '{' then scanAux .ws1 cs
    else if c = '$' then scanAux .dollar cs
    else scanAux .outside cs
  | .ws1, c :: cs =>
    if pyIsSpace c then scanAux .ws1 cs
    else if isNameChar c then scanAux (.name [c]) cs
    else if c = '$' then scanAux .dollar cs
    else scanAux .outside cs
  | .name acc, c :: cs =>
    if isNameChar c then scanAux (.name (c :: acc)) cs
    else if c = '}' then (⟨acc.reverse⟩ : String) :: scanAux .outside cs
    else if pyIsSpace c then scanAux (.ws2 acc) cs
    else if c = '$' then scanAux .dollar cs
    else scanAux .outside cs
  | .ws2 acc, c :: cs =>
    if pyIsSpace c then scanAux (.ws2 acc) cs
    else if c = '}' then (⟨acc.reverse⟩ : String) :: scanAux .outside cs
    else if c = '$' then scanAux .dollar cs
    else scanAux .outside cs

/-- All placeholder captures of a template, in scan order, duplicates kept
(line 186 of generate.py). -/
def scanPlaceholders (s : String) : List String := scanAux .outside s.data

/-! ## Substitution: `re.compile(rf"\$\x7b\x7bre.escape(placeholder)\x7d(?::[^\x7d]*)?\x7d").sub(escaped_value, prompt)` -/

/-- `escape_backslashes` (line 329): double every backslash so the regex
replacement machinery reinserts the value literally. -/
def escape_backslashes (s : String) : String :=
  ⟨s.data.flatMap (fun c => if c = '\\' then ['\\', '\\'] else [c])⟩

/-- `re.sub`'s processing of the replacement string: a doubled backslash
stands for one backslash.  (Other escapes would raise in Python; the
program only ever passes `escape_backslashes` output, in which every
backslash is doubled.) -/
def replUnescape : List Char → List Char
  | [] => []
  | [c] => [c]
  | c1 :: c2 :: t =>
    if c1 = '\\' ∧ c2 = '\\' then '\\' :: replUnescape t
    else c1 :: replUnescape (c2 :: t)

/-- Strip a literal prefix. -/
def stripPrefixCh : List Char → List Char → Option (List Char)
  | [], l => some l
  | _, [] => none
  | a :: as1, c :: cs => if a = c then stripPrefixCh as1 cs else none

/-- Consume `[^\x7d]*` then the closing brace. -/
def dropToBrace : List Char → Option (List Char)
  | [] => none
  | c :: t => if c = '}' then some t else dropToBrace t

/-- Try the pattern dollar, open brace, the literal name, an optional
colon-directive, close brace at the head of `l`; on success return what
follows the match. -/
def matchRef (nm : List Char) (l : List Char) : Option (List Char) :=
  match l with
  | c1 :: c2 :: t =>
    if c1 = '$' ∧ c2 = '{' then
      match stripPrefixCh nm t with
      | none => none
      | some t2 =>
        match t2 with
        | [] => none
        | c3 :: r => if c3 = '}' then some r else if c3 = ':' then dropToBrace r else none
    else none
  | _ => none

/-- The left-to-right, non-overlapping `sub` scan.  `fuel` only bounds the
recursion; `fuel ≥ l.length` always suffices (each step consumes at
least one character). -/
def substAux (nm repl : List Char) : Nat → List Char → List Char
  | 0, l => l
  | _ + 1, [] => []
  | fuel + 1, c :: cs =>
    match matchRef nm (c :: cs) with
    | some r => repl ++ substAux nm repl fuel r
    | none => c :: substAux nm repl fuel cs

/-- `pattern.sub(repl, s)` for the directive-insensitive placeholder
pattern (lines 258-260 of generate.py). -/
def pattern_sub (placeholder repl s : String) : String :=
  ⟨substAux placeholder.data (replUnescape repl.data) s.data.length s.data⟩

/-! ## `sanitize_string`, variation naming, `value_variations` -/

/-- `re.sub(r"[^a-zA-Z0-9_-]", "_", input_string)` (line 326). -/
def sanitize_string (s : String) : String :=
  ⟨s.data.map (fun c =>
    if ('a' ≤ c ∧ c ≤ 'z') ∨ ('A' ≤ c ∧ c ≤ 'Z') ∨ ('0' ≤ c ∧ c ≤ '9') ∨ c = '_' ∨ c = '-'
    then c else '_')⟩

def hexDigit (n : Nat) : Char :=
  if n < 10 then Char.ofNat (48 + n) else Char.ofNat (97 + n - 10)

/-- `f"{h & 0xFFFFFFFF:08x}"`. -/
def toHex8 (h : Nat) : String :=
  ⟨(List.range 8).reverse.map (fun i => hexDigit ((h % 2 ^ 32) / 16 ^ i % 16))⟩

def isMulti : PValue → Bool
  | .multi _ => true
  | .scalar _ => false

def scalarText : PValue → String
  | .scalar s => s
  | .multi _ => ""   -- unreachable where used (guarded by `isMulti`)

/-- `itertools.product`, rightmost factor varying fastest. -/
def listProd {α : Type} : List (List α) → List (List α)
  | [] => [[]]
  | l :: ls => l.flatMap (fun x => (listProd ls).map (fun p => x :: p))

/-- `value_variations` (lines 40-58): all variations, the keys that
varied, and the map from a multi-entry's full text to its short name. -/
def value_variations (input : List (String × PValue)) :
    List (List (String × String)) × List String × List (String × String) :=
  let nested_keys := (input.filter (fun p => isMulti p.2)).map (fun p => p.1)
  if nested_keys = [] then
    ([input.map (fun p => (p.1, scalarText p.2))], [], [])
  else
    let nested_values : List (List (String × String × String)) :=
      nested_keys.map (fun k =>
        match lookupD input k with
        | some (.multi m) => m.map (fun e => (k, e.1, e.2))
        | _ => [])
    let base := (input.filter (fun p => ¬ isMulti p.2)).map (fun p => (p.1, scalarText p.2))
    let step := fun (acc : List (List (String × String)) × List (String × String))
                    (combination : List (String × String × String)) =>
      let variation := combination.foldl
        (fun va (item : String × String × String) => dictUpd va item.1 item.2.2) base
      let short_names := combination.foldl
        (fun sn (item : String × String × String) => dictUpd sn item.2.2 item.2.1) acc.2
      (acc.1 ++ [variation], short_names)
    let out := (listProd nested_values).foldl step ([], [])
    (out.1, nested_keys, out.2)

/-- `name_for_variation` (lines 60-71).  `ph` stands for Python's
process-seeded `hash` builtin. -/
def name_for_variation (ph : String → Nat) (variation : List (String × String))
    (nested_keys : List String) (short_names : List (String × String)) : String :=
  String.intercalate "_" ((variation.filter (fun p => p.1 ∈ nested_keys)).map (fun p =>
    let short := (lookupD short_names p.2).getD p.2
    let str_v := sanitize_string short
    if str_v.length > 32 then toHex8 (ph p.2) else str_v))

/-- The `multi`-directive reinterpretation of a scalar (lines 226-230):
`for line in value.splitlines(): if line: new_value[line] = line`. -/
def multiSplitDict (s : String) : List (String × String) :=
  (pySplitlines s).foldl (fun acc line => if line ≠ "" then dictUpd acc line line else acc) []

/-- The name validity regex `^[_a-zA-Z][a-zA-Z0-9_]*$` (line 219). -/
def validName (s : String) : Bool :=
  match s.data with
  | [] => false
  | c :: t =>
    (c = '_' ∨ ('a' ≤ c ∧ c ≤ 'z') ∨ ('A' ≤ c ∧ c ≤ 'Z')) ∧
    t.all (fun d => ('a' ≤ d ∧ d ≤ 'z') ∨ ('A' ≤ d ∧ d ≤ 'Z') ∨ ('0' ≤ d ∧ d ≤ '9') ∨ d = '_')

/-! ## Execution context, stores, and run state -/

/-- `IgnoreType = Literal['golden', 'target', 'includes', 'prompts', 'overrides']`. -/
inductive IgnoreType where
  | golden
  | target
  | includes
  | prompts
  | overrides
deriving DecidableEq

/-- `IgnoreDict` (a `TypedDict` with every key optional). -/
structure IgnoreDict where
  golden : Option (List String) := none
  target : Option (List String) := none
  includes : Option (List String) := none
  prompts : Option (List String) := none
  overrides : Option (List String) := none
deriving DecidableEq

def ignoreGet (ignore : IgnoreDict) : IgnoreType → Option (List String)
  | .golden => ignore.golden
  | .target => ignore.target
  | .includes => ignore.includes
  | .prompts => ignore.prompts
  | .overrides => ignore.overrides

def WILDCARD : String := "*"

/-- `should_ignore` (lines 120-129). -/
def should_ignore (folder : IgnoreType) (name : String) (ignore : IgnoreDict) : Bool :=
  match ignoreGet ignore folder with
  | none => false
  | some l => l.contains WILDCARD || l.contains name

/-- `ExecutionContext` (lines 32-37). -/
structure ExecutionContext where
  overrides : List (String × String)
  timestamp : String
  ignore : IgnoreDict
deriving DecidableEq

/-- The read-only source directories and the external generator.
`golden name` is what `fetch_folder(GOLDEN_DIR, name)` returns
(a file's text, a folder as a mapping, or `none`); same for
`includes` and `prompts`.  `llm p` is the generator's output for the
compiled prompt `p`, `none` meaning the subprocess failed. -/
structure Stores where
  golden : String → Option PValue
  includes : String → Option PValue
  prompts : String → Option PValue
  llm : String → Option String

/-- The mutable world: `target/{name}/{ts}/` output files, the
`_info/prompts` copies, the `_latest` links, and everything printed. -/
structure RState where
  runs : List ((String × String) × List (String × String))
  infoPrompts : List ((String × String) × List (String × String))
  latest : List (String × String)
  log : List String
deriving DecidableEq

def pushLog (st : RState) (m : String) : RState := { st with log := st.log ++ [m] }

/-- `os.makedirs(..., exist_ok=True)` for one run directory key. -/
def ensureKey (m : List ((String × String) × List (String × String))) (k : String × String) :
    List ((String × String) × List (String × String)) :=
  if (lookupD m k).isSome then m else m ++ [(k, [])]

/-- Lines 281-284: allocate `target/{name}/{ts}/` and its
`_info/prompts` subdirectory before compiling. -/
def ensureDirs (st : RState) (name ts : String) : RState :=
  { st with runs := ensureKey st.runs (name, ts), infoPrompts := ensureKey st.infoPrompts (name, ts) }

def writeFileIn (m : List ((String × String) × List (String × String)))
    (k : String × String) (vn content : String) :
    List ((String × String) × List (String × String)) :=
  dictUpd m k (dictUpd ((lookupD m k).getD []) vn content)

/-- Write `target/{name}/{ts}/{vn}.txt`. -/
def writeOutput (st : RState) (name ts vn content : String) : RState :=
  { st with runs := writeFileIn st.runs (name, ts) vn content }

/-- Write `target/{name}/{ts}/_info/prompts/{vn}.txt`. -/
def writeInfoPrompt (st : RState) (name ts vn p : String) : RState :=
  { st with infoPrompts := writeFileIn st.infoPrompts (name, ts) vn p }

/-- `fetch_most_recent_target` (line 73), i.e.
`fetch_folder(f"./target/{name}/{LATEST_LINK}", name, True)`:
follow the `_latest` link, look for a file whose basename is `name`
(a run stores `{variation}.txt` files), otherwise return the whole
directory as a mapping (the `_info` subdirectory is skipped because
`fetch_folder` only collects regular files). -/
def fetch_most_recent_target (name : String) (st : RState) : Option PValue :=
  match lookupD st.latest name with
  | none => none
  | some ts =>
    match lookupD st.runs (name, ts) with
    | none => none
    | some files =>
      match files.find? (fun f => f.1 == name) with
      | some f => some (.scalar f.2)
      | none => some (.multi files)

/-- The content of `target/{name}/{ts}/{vn}.txt`, if written. -/
def runFile (st : RState) (name ts vn : String) : Option String :=
  lookupD ((lookupD st.runs (name, ts)).getD []) vn

/-- The content of `target/{name}/{ts}/_info/prompts/{vn}.txt`, if written. -/
def infoFile (st : RState) (name ts vn : String) : Option String :=
  lookupD ((lookupD st.infoPrompts (name, ts)).getD []) vn

def outOfFuel : String := "OUT_OF_FUEL"

/-! ## The generation loop and `_latest` publication (lines 294-324)

These two functions are the body of `execute_prompt` after compilation:
run the generator once per variation, persisting each output and the
exact compiled prompt, and only when every variation has completed
replace the `_latest` link.  A generator failure prints and
`sys.exit(1)`s, leaving the link untouched. -/

def execLoop (S : Stores) (name ts : String) :
    List (String × String) → RState → Except String Unit × RState
  | [], st => (.ok (), st)
  | (variation_name, prompt) :: rest, st =>
    let st1 := pushLog st ("Running llm command for " ++ name ++ " / " ++ variation_name ++ "...")
    match S.llm prompt with
    | none =>
      (.error "SystemExit: 1",
       pushLog st1 ("Error running llm command for " ++ name ++ ": CalledProcessError"))
    | some output =>
      let st2 := writeOutput st1 name ts variation_name output
      let st3 := writeInfoPrompt st2 name ts variation_name prompt
      let st4 := pushLog st3
        ("Output saved to ./target/" ++ name ++ "/" ++ ts ++ "/" ++ variation_name ++ ".txt")
      execLoop S name ts rest st4

def runVariationsAndPublish (S : Stores) (name ts : String)
    (entries : List (String × String)) (st : RState) : Except String Unit × RState :=
  match execLoop S name ts entries st with
  | (.error e, st1) => (.error e, st1)
  | (.ok _, st1) => (.ok (), { st1 with latest := dictUpd st1.latest name ts })

/-! ## The resolution / compilation engine

The mutual recursion of `compile_prompt` (lines 183-270),
`fetch_placeholder` (lines 131-181), `fetch_prompt` (lines 103-118)
and `execute_prompt` (lines 273-324).  The two `for` loops inside
`compile_prompt` that make recursive calls are split off as
`compileLoop` (the per-occurrence loop of lines 200-242) and
`compileEntries` (the per-entry loop of lines 233-239).  Every
function consumes one unit of fuel. -/

/-! The five-source cascade of `fetch_placeholder` (lines 131-181),
rendered as one function per numbered block of the source's
"Override order" comment.  `fpr` abstracts the prompts attempt
(`fetch_prompt` partially applied), which is what makes these
definable outside the mutual recursion. -/

/-- Block 5 of `fetch_placeholder`: try `prompts/` (lines 171-179), else
raise the not-found error (line 181). -/
def fpStep5 (fpr : RState → Except String (Option PValue) × RState)
    (name : String) (ctx : ExecutionContext) (st : RState) : Except String PValue × RState :=
  match fpr st with
  | (.error e, st1) => (.error e, st1)
  | (.ok value, st1) =>
    match value with
    | none => (.error ("Could not find value for placeholder " ++ name), st1)
    | some v =>
      if pyTruthy v then
        if should_ignore .prompts name ctx.ignore then
          (.error ("Could not find value for placeholder " ++ name),
           pushLog st1 ("Would have used prompt file for " ++ name ++ " but --ignore prompts was specified."))
        else (.ok v, pushLog st1 ("Using prompt file for " ++ name ++ "..."))
      else (.error ("Could not find value for placeholder " ++ name), st1)

/-- Block 4 of `fetch_placeholder`: try `includes/` (lines 163-169). -/
def fpStep4 (S : Stores) (fpr : RState → Except String (Option PValue) × RState)
    (name : String) (ctx : ExecutionContext) (st : RState) : Except String PValue × RState :=
  match S.includes name with
  | none => fpStep5 fpr name ctx st
  | some v =>
    if pyTruthy v then
      if should_ignore .includes name ctx.ignore then
        fpStep5 fpr name ctx
          (pushLog st ("Would have used include file for " ++ name ++ " but --ignore includes was specified."))
      else (.ok v, pushLog st ("Using include file for " ++ name ++ "..."))
    else fpStep5 fpr name ctx st

/-- Block 3 of `fetch_placeholder`: try the most recent target
(lines 155-161). -/
def fpStep3 (S : Stores) (fpr : RState → Except String (Option PValue) × RState)
    (name : String) (ctx : ExecutionContext) (st : RState) : Except String PValue × RState :=
  match fetch_most_recent_target name st with
  | none => fpStep4 S fpr name ctx st
  | some v =>
    if pyTruthy v then
      if should_ignore .target name ctx.ignore then
        fpStep4 S fpr name ctx
          (pushLog st ("Would have used most recent target for " ++ name ++ " but --ignore target was specified."))
      else (.ok v, pushLog st ("Using most recent target for " ++ name ++ "..."))
    else fpStep4 S fpr name ctx st

/-- Block 2 of `fetch_placeholder`: try `golden/` (lines 147-153). -/
def fpStep2 (S : Stores) (fpr : RState → Except String (Option PValue) × RState)
    (name : String) (ctx : ExecutionContext) (st : RState) : Except String PValue × RState :=
  match S.golden name with
  | none => fpStep3 S fpr name ctx st
  | some v =>
    if pyTruthy v then
      if should_ignore .golden name ctx.ignore then
        fpStep3 S fpr name ctx
          (pushLog st ("Would have used golden file for " ++ name ++ " but --ignore golden was specified."))
      else (.ok v, pushLog st ("Using golden file for " ++ name ++ "..."))
    else fpStep3 S fpr name ctx st

mutual

def compile_prompt (S : Stores) (ph : String → Nat) (fuel : Nat) (name raw_prompt : String)
    (ctx : ExecutionContext) (parent_names : List String) (st : RState) :
    Except String PValue × RState :=
  match fuel with
  | 0 => (.error outOfFuel, st)
  | f + 1 =>
    let placeholders := scanPlaceholders raw_prompt
    if placeholders = [] then
      (.ok (.scalar raw_prompt),
       if parent_names = [] then pushLog st "No placeholders found in the prompt." else st)
    else
      let st1 := pushLog st ("Compiling prompt for " ++ name ++ "...")
      match compileLoop S ph f name ctx parent_names placeholders [] st1 with
      | (.error e, st2) => (.error e, st2)
      | (.ok placeholder_values, st2) =>
        let v := value_variations placeholder_values
        let result := v.1.foldl (fun racc variation =>
            let prompt := variation.foldl
              (fun pr kv => pattern_sub kv.1 (escape_backslashes kv.2) pr) raw_prompt
            dictUpd racc (name_for_variation ph variation v.2.1 v.2.2) prompt) []
        match result with
        | [single] => (.ok (.scalar single.2), st2)
        | _ => (.ok (.multi result), st2)
termination_by structural fuel

def compileLoop (S : Stores) (ph : String → Nat) (fuel : Nat) (name : String)
    (ctx : ExecutionContext) (parent_names : List String) (ps : List String)
    (acc : List (String × PValue)) (st : RState) :
    Except String (List (String × PValue)) × RState :=
  match fuel with
  | 0 => (.error outOfFuel, st)
  | f + 1 =>
    match ps with
    | [] => (.ok acc, st)
    | raw_placeholder :: rest =>
      let parts := splitColon raw_placeholder.data
      let placeholder : String := ⟨pyStrip (parts.headD [])⟩
      let multiE : Except String Bool :=
        if h : 1 < parts.length then
          let command : String := ⟨pyStrip (parts.get ⟨1, h⟩)⟩
          if command = "multi" then .ok true
          else .error ("Invalid command " ++ command ++ " in placeholder " ++ raw_placeholder)
        else .ok false
      match multiE with
      | .error e => (.error e, st)
      | .ok multiFlag =>
        if placeholder ∈ parent_names then
          (.error ("Circular dependency detected: " ++ pyListRepr parent_names ++ " -> " ++ placeholder), st)
        else if ¬ validName placeholder then
          (.error ("Invalid placeholder name " ++ placeholder), st)
        else
          let st1 := pushLog st ("Getting value for " ++ placeholder ++ "...")
          match fetch_placeholder S ph f placeholder ctx (parent_names ++ [name]) st1 with
          | (.error e, st2) => (.error e, st2)
          | (.ok value0, st2) =>
            let value := if multiFlag then
                match value0 with
                | .scalar s => PValue.multi (multiSplitDict s)
                | v => v
              else value0
            match value with
            | .multi m =>
              match compileEntries S ph f placeholder ctx (parent_names ++ [name]) m [] st2 with
              | (.error e, st3) => (.error e, st3)
              | (.ok resultMap, st3) =>
                compileLoop S ph f name ctx parent_names rest
                  (dictUpd acc placeholder (.multi resultMap)) st3
            | .scalar s =>
              match compile_prompt S ph f placeholder s ctx (parent_names ++ [name]) st2 with
              | (.error e, st3) => (.error e, st3)
              | (.ok pv, st3) =>
                compileLoop S ph f name ctx parent_names rest (dictUpd acc placeholder pv) st3
termination_by structural fuel

def compileEntries (S : Stores) (ph : String → Nat) (fuel : Nat) (placeholder : String)
    (ctx : ExecutionContext) (parentsPlus : List String) (m : List (String × String))
    (accR : List (String × String)) (st : RState) :
    Except String (List (String × String)) × RState :=
  match fuel with
  | 0 => (.error outOfFuel, st)
  | f + 1 =>
    match m with
    | [] => (.ok accR, st)
    | (key, val) :: t =>
      match compile_prompt S ph f placeholder val ctx parentsPlus st with
      | (.error e, st1) => (.error e, st1)
      | (.ok (.multi _), st1) => (.error ("Nested multi not supported for " ++ placeholder), st1)
      | (.ok (.scalar temp), st1) =>
        compileEntries S ph f placeholder ctx parentsPlus t (dictUpd accR key temp) st1
termination_by structural fuel

def fetch_placeholder (S : Stores) (ph : String → Nat) (fuel : Nat) (name : String)
    (ctx : ExecutionContext) (parent_names : List String) (st : RState) :
    Except String PValue × RState :=
  match fuel with
  | 0 => (.error outOfFuel, st)
  | f + 1 =>
    match lookupD ctx.overrides name with
    | none => fpStep2 S (fun st1 => fetch_prompt S ph f name ctx parent_names st1) name ctx st
    | some v =>
      if should_ignore .overrides name ctx.ignore then
        fpStep2 S (fun st1 => fetch_prompt S ph f name ctx parent_names st1) name ctx
          (pushLog st ("Would have used placeholder override for " ++ name ++ " but --ignore overrides was specified."))
      else (.ok (.scalar v), pushLog st ("Using placeholder override for " ++ name ++ "..."))
termination_by structural fuel

def fetch_prompt (S : Stores) (ph : String → Nat) (fuel : Nat) (name : String)
    (ctx : ExecutionContext) (parent_names : List String) (st : RState) :
    Except String (Option PValue) × RState :=
  match fuel with
  | 0 => (.error outOfFuel, st)
  | f + 1 =>
    let raw_prompt := S.prompts name
    if ¬ pyTruthyO raw_prompt then (.ok none, st)
    else
      let st1 := pushLog st ("Executing prompt for " ++ name ++ "...")
      match raw_prompt with
      | some (.multi _) => (.error ("Nested multi not supported for " ++ name), st1)
      | some (.scalar s) =>
        match execute_prompt S ph f name s ctx parent_names st1 with
        | (.error e, st2) => (.error e, st2)
        | (.ok _, st2) => (.ok (fetch_most_recent_target name st2), st2)
      | none => (.ok none, st1)
termination_by structural fuel

def execute_prompt (S : Stores) (ph : String → Nat) (fuel : Nat) (name raw_prompt : String)
    (ctx : ExecutionContext) (parent_names : List String) (st : RState) :
    Except String Unit × RState :=
  match fuel with
  | 0 => (.error outOfFuel, st)
  | f + 1 =>
    let ts := ctx.timestamp
    let st1 := ensureDirs st name ts
    match compile_prompt S ph f name raw_prompt ctx parent_names st1 with
    | (.error e, st2) => (.error e, st2)
    | (.ok pv, st2) =>
      let entries := match pv with
        | .scalar s => [(name, s)]
        | .multi m => m
      runVariationsAndPublish S name ts entries st2

termination_by structural fuel
end

/-! ## Specification-side description of the Resolver

`resolveSpec` transcribes the specification's words for resolution
(spec section 4.1 and the C1 property): try the five sources in the
fixed order overrides, golden, most-recent-target, includes, prompts;
a source holding a value that is ignored for this name logs a skip
message and resolution falls through; the first non-ignored holding
source is returned; if no source yields a usable value, resolution
fails with the placeholder-not-found error.  Claim C1 is settled by
proving `fetch_placeholder` equal to it. -/

inductive Src where
  | ovr
  | gold
  | targ
  | incl
  | prmpt
deriving DecidableEq

def srcIgnoreKey : Src → IgnoreType
  | .ovr => .overrides
  | .gold => .golden
  | .targ => .target
  | .incl => .includes
  | .prmpt => .prompts

def useMsg : Src → String → String
  | .ovr, n => "Using placeholder override for " ++ n ++ "..."
  | .gold, n => "Using golden file for " ++ n ++ "..."
  | .targ, n => "Using most recent target for " ++ n ++ "..."
  | .incl, n => "Using include file for " ++ n ++ "..."
  | .prmpt, n => "Using prompt file for " ++ n ++ "..."

def skipMsg : Src → String → String
  | .ovr, n => "Would have used placeholder override for " ++ n ++ " but --ignore overrides was specified."
  | .gold, n => "Would have used golden file for " ++ n ++ " but --ignore golden was specified."
  | .targ, n => "Would have used most recent target for " ++ n ++ " but --ignore target was specified."
  | .incl, n => "Would have used include file for " ++ n ++ " but --ignore includes was specified."
  | .prmpt, n => "Would have used prompt file for " ++ n ++ " but --ignore prompts was specified."

/-- One source's attempt to supply a usable value for `name`: for
overrides, membership of the key; for the three stores and the latest
target, a Python-truthy stored value; for prompts, executing the
prompt (which may change the world and may fail) and then reading the
freshest target output. -/
def attemptSrc (S : Stores) (ph : String → Nat) (fuel : Nat) (name : String)
    (ctx : ExecutionContext) (parent_names : List String) :
    Src → RState → Except String (Option PValue) × RState
  | .ovr, st => (.ok ((lookupD ctx.overrides name).map .scalar), st)
  | .gold, st =>
    (.ok (match S.golden name with
          | some v => if pyTruthy v then some v else none
          | none => none), st)
  | .targ, st =>
    (.ok (match fetch_most_recent_target name st with
          | some v => if pyTruthy v then some v else none
          | none => none), st)
  | .incl, st =>
    (.ok (match S.includes name with
          | some v => if pyTruthy v then some v else none
          | none => none), st)
  | .prmpt, st =>
    match fetch_prompt S ph fuel name ctx parent_names st with
    | (.error e, st1) => (.error e, st1)
    | (.ok v, st1) =>
      (.ok (match v with
            | some v1 => if pyTruthy v1 then some v1 else none
            | none => none), st1)

def resolveFold (S : Stores) (ph : String → Nat) (fuel : Nat) (name : String)
    (ctx : ExecutionContext) (parent_names : List String) :
    List Src → RState → Except String PValue × RState
  | [], st => (.error ("Could not find value for placeholder " ++ name), st)
  | k :: ks, st =>
    match attemptSrc S ph fuel name ctx parent_names k st with
    | (.error e, st1) => (.error e, st1)
    | (.ok none, st1) => resolveFold S ph fuel name ctx parent_names ks st1
    | (.ok (some v), st1) =>
      if should_ignore (srcIgnoreKey k) name ctx.ignore then
        resolveFold S ph fuel name ctx parent_names ks (pushLog st1 (skipMsg k name))
      else (.ok v, pushLog st1 (useMsg k name))

def resolveSpec (S : Stores) (ph : String → Nat) (fuel : Nat) (name : String)
    (ctx : ExecutionContext) (parent_names : List String) (st : RState) :
    Except String PValue × RState :=
  resolveFold S ph fuel name ctx parent_names [.ovr, .gold, .targ, .incl, .prmpt] st

/-! ## Concrete fixtures for counterexamples and witnesses -/

def phZero : String → Nat := fun _ => 0

def emptyState : RState := ⟨[], [], [], []⟩

def noIgnore : IgnoreDict := {}

def emptyStores : Stores := ⟨fun _ => none, fun _ => none, fun _ => none, fun _ => none⟩

/-- A context with no overrides and timestamp `T1`. -/
def ctxT1 : ExecutionContext := ⟨[], "T1", noIgnore⟩

/-- Stores for the C2 counterexample: `prompts/A` holds the
placeholder-free template `hello`; the generator succeeds on `hello`
(producing `out`) and fails on anything else. -/
def storesC2 : Stores :=
  ⟨fun _ => none, fun _ => none,
   fun n => if n = "A" then some (.scalar "hello") else none,
   fun p => if p = "hello" then some "out" else none⟩

/-- Stores for the C3 counterexample: `golden/A` holds `G`. -/
def storesC3 : Stores :=
  ⟨fun n => if n = "A" then some (.scalar "G") else none,
   fun _ => none, fun _ => none, fun _ => none⟩

/-- Context for the C4 counterexample: an override for `_unknown`. -/
def ctxC4 : ExecutionContext := ⟨[("_unknown", "v")], "T1", noIgnore⟩

/-- Context for the C5 counterexample and witness: an override for `x`. -/
def ctxC5 : ExecutionContext := ⟨[("x", "v")], "T1", noIgnore⟩

/-- Stores for the C10 witness: `golden`, `includes` and `prompts` all
hold an empty file for `n`. -/
def storesC10 : Stores :=
  ⟨fun n => if n = "n" then some (.scalar "") else none,
   fun n => if n = "n" then some (.scalar "") else none,
   fun n => if n = "n" then some (.scalar "") else none,
   fun _ => none⟩

/-- World for the C10 witness: a completed run of `n` whose output file
is empty. -/
def stateC10 : RState := ⟨[(("n", "T0"), [("n", "")])], [(("n", "T0"), [])], [("n", "T0")], []⟩

/-- Context for the C10 witness: an override for `n` whose value is the
empty string. -/
def ctxC10 : ExecutionContext := ⟨[("n", "")], "T1", noIgnore⟩

/-! # Theorems -/

/-! ## C1: resolution order, skip-logging fallthrough, not-found -/

theorem step5_eq (S : Stores) (ph : String → Nat) (fuel : Nat) (name : String)
    (ctx : ExecutionContext) (parent_names : List String) (st : RState) :
    fpStep5 (fun st1 => fetch_prompt S ph fuel name ctx parent_names st1) name ctx st =
    resolveFold S ph fuel name ctx parent_names [.prmpt] st := by
  rw [fpStep5, resolveFold]
  simp only [resolveFold, attemptSrc, srcIgnoreKey, useMsg, skipMsg]
  rcases hp : fetch_prompt S ph fuel name ctx parent_names st with ⟨r, st1⟩
  rcases r with e | vo
  · rfl
  · rcases vo with _ | v
    · rfl
    · by_cases ht : pyTruthy v = true <;> simp only [ht, if_true, if_false] <;> rfl

theorem step4_eq (S : Stores) (ph : String → Nat) (fuel : Nat) (name : String)
    (ctx : ExecutionContext) (parent_names : List String) (st : RState) :
    fpStep4 S (fun st1 => fetch_prompt S ph fuel name ctx parent_names st1) name ctx st =
    resolveFold S ph fuel name ctx parent_names [.incl, .prmpt] st := by
  rw [fpStep4, resolveFold]
  simp only [attemptSrc, srcIgnoreKey, useMsg, skipMsg]
  rcases hi : S.includes name with _ | v
  · exact step5_eq S ph fuel name ctx parent_names st
  · by_cases ht : pyTruthy v = true <;> simp only [ht, if_true, if_false]
    all_goals try (exact step5_eq S ph fuel name ctx parent_names st)
    by_cases hig : should_ignore .includes name ctx.ignore = true <;>
      simp only [hig, if_true, if_false]
    · exact step5_eq S ph fuel name ctx parent_names _
    · rfl

theorem step3_eq (S : Stores) (ph : String → Nat) (fuel : Nat) (name : String)
    (ctx : ExecutionContext) (parent_names : List String) (st : RState) :
    fpStep3 S (fun st1 => fetch_prompt S ph fuel name ctx parent_names st1) name ctx st =
    resolveFold S ph fuel name ctx parent_names [.targ, .incl, .prmpt] st := by
  rw [fpStep3, resolveFold]
  simp only [attemptSrc, srcIgnoreKey, useMsg, skipMsg]
  rcases htg : fetch_most_recent_target name st with _ | v
  · exact step4_eq S ph fuel name ctx parent_names st
  · by_cases ht : pyTruthy v = true <;> simp only [ht, if_true, if_false]
    all_goals try (exact step4_eq S ph fuel name ctx parent_names st)
    by_cases hig : should_ignore .target name ctx.ignore = true <;>
      simp only [hig, if_true, if_false]
    · exact step4_eq S ph fuel name ctx parent_names _
    · rfl

theorem step2_eq (S : Stores) (ph : String → Nat) (fuel : Nat) (name : String)
    (ctx : ExecutionContext) (parent_names : List String) (st : RState) :
    fpStep2 S (fun st1 => fetch_prompt S ph fuel name ctx parent_names st1) name ctx st =
    resolveFold S ph fuel name ctx parent_names [.gold, .targ, .incl, .prmpt] st := by
  rw [fpStep2, resolveFold]
  simp only [attemptSrc, srcIgnoreKey, useMsg, skipMsg]
  rcases hg : S.golden name with _ | v
  · exact step3_eq S ph fuel name ctx parent_names st
  · by_cases ht : pyTruthy v = true <;> simp only [ht, if_true, if_false]
    all_goals try (exact step3_eq S ph fuel name ctx parent_names st)
    by_cases hig : should_ignore .golden name ctx.ignore = true <;>
      simp only [hig, if_true, if_false]
    · exact step3_eq S ph fuel name ctx parent_names _
    · rfl

/-- C1: for every placeholder name, context, parent chain, store contents
and world state, `fetch_placeholder` is exactly the specified cascade
`resolveSpec`: the five sources are tried in the fixed order overrides,
golden, most-recent-target, includes, prompts; a source that holds a
value but is ignored for the name logs the skip message and resolution
falls through to the next source; the first non-ignored source holding
a value is returned (with its use message); and if no source yields a
usable value, resolution fails with the placeholder-not-found error. -/
theorem C1_resolution_order (S : Stores) (ph : String → Nat) (f : Nat) (name : String)
    (ctx : ExecutionContext) (parent_names : List String) (st : RState) :
    fetch_placeholder S ph (f + 1) name ctx parent_names st =
    resolveSpec S ph f name ctx parent_names st := by
  rw [fetch_placeholder, resolveSpec, resolveFold]
  simp only [attemptSrc, srcIgnoreKey, useMsg, skipMsg]
  rcases hov : lookupD ctx.overrides name with _ | v <;>
    simp only [Option.map_none, Option.map_some]
  · exact step2_eq S ph f name ctx parent_names st
  · by_cases hig : should_ignore .overrides name ctx.ignore = true <;>
      simp only [hig, if_true, if_false]
    · exact step2_eq S ph f name ctx parent_names _
    · rfl

/-! ## C9: identity on placeholder-free templates -/

/-- C9: for every template string in which the scanner finds no
placeholder references, compilation returns the template string
unchanged (as a scalar), whatever the context, parent chain, state and
fuel. -/
theorem C9_identity (S : Stores) (ph : String → Nat) (f : Nat) (name raw_prompt : String)
    (ctx : ExecutionContext) (parent_names : List String) (st : RState)
    (h : scanPlaceholders raw_prompt = []) :
    (compile_prompt S ph (f + 1) name raw_prompt ctx parent_names st).1 =
    .ok (.scalar raw_prompt) := by
  rw [compile_prompt]
  simp [h]

theorem C9_identity_witness :
    (compile_prompt emptyStores phZero 1 "t" "no placeholders here" ctxT1 [] emptyState).1 =
    .ok (.scalar "no placeholders here") :=
  C9_identity emptyStores phZero 0 "t" "no placeholders here" ctxT1 [] emptyState (by decide)

/-! ## C4: invalid placeholder identifiers -/

/-- C4 counterexample: the claim says a reference whose identifier
begins with an underscore but is not in a closed whitelist (such as
`_unknown`) fails compilation with the invalid-name error before any
resolution attempt.  In the code the validity regex is
`^[_a-zA-Z][a-zA-Z0-9_]*$`, which accepts every underscore-led
identifier: compiling a template holding only `_unknown` (with an
override supplying its value) succeeds, and the resolution attempt is
logged. -/
theorem C4_counterexample :
    (compile_prompt emptyStores phZero 20 "t" "$\x7b_unknown\x7d" ctxC4 [] emptyState).1 =
      .ok (.scalar "v") ∧
    "Getting value for _unknown..." ∈
      (compile_prompt emptyStores phZero 20 "t" "$\x7b_unknown\x7d" ctxC4 [] emptyState).2.log := by
  decide

/-- C4 amended: a reference whose identifier fails the regex
`[_A-Za-z][A-Za-z0-9_]*` (such as `1bad`), reached as the first
reference of a template, aborts compilation with the
invalid-placeholder-name error before any resolution attempt: the
state is unchanged except for the compiling log line, so no source
lookup and no side effect happened for that reference.  (Identifiers
that merely begin with an underscore pass the regex; no whitelist is
enforced, as the counterexample shows.) -/
theorem C4_invalid_name_rejected (S : Stores) (ph : String → Nat) (f : Nat)
    (name raw_prompt p : String) (rest : List String) (ctx : ExecutionContext)
    (parent_names : List String) (st : RState)
    (hscan : scanPlaceholders raw_prompt = p :: rest)
    (hsplit : splitColon p.data = [p.data])
    (hstrip : pyStrip p.data = p.data)
    (hpar : p ∉ parent_names)
    (hval : validName p = false) :
    compile_prompt S ph (f + 2) name raw_prompt ctx parent_names st =
    (.error ("Invalid placeholder name " ++ p),
     pushLog st ("Compiling prompt for " ++ name ++ "...")) := by
  rw [compile_prompt]
  simp only [hscan, List.cons_ne_nil, if_false]
  rw [compileLoop]
  simp [hsplit, hstrip, hpar, hval]

theorem C4_invalid_name_witness :
    compile_prompt emptyStores phZero 2 "t" "$\x7b1bad\x7d" ctxT1 [] emptyState =
    (.error ("Invalid placeholder name " ++ "1bad"),
     pushLog emptyState ("Compiling prompt for " ++ "t" ++ "...")) :=
  C4_invalid_name_rejected emptyStores phZero 0 "t" "$\x7b1bad\x7d" "1bad" [] ctxT1 []
    emptyState (by decide) (by decide) (by decide) (by decide) (by decide)

/-! ## C3: cycle detection -/

/-- C3 counterexample: the claim says every template whose resolution
chain reaches a name already in the parent chain — including the
direct case of a template `A` referencing `A` — fails with a cycle
error before any I/O for that placeholder.  In the code the cycle
check compares a reference only against the caller chain, which at top
level does not contain the template's own name: compiling template `A`
consisting of `$\x7bA\x7d` (with a golden file for `A`) performs the golden
lookup (logged) and succeeds with no cycle error, even though `A` is
in the parent chain of its own fetch. -/
theorem C3_counterexample :
    (compile_prompt storesC3 phZero 20 "A" "$\x7bA\x7d" ctxT1 [] emptyState).1 =
      .ok (.scalar "G") ∧
    "Using golden file for A..." ∈
      (compile_prompt storesC3 phZero 20 "A" "$\x7bA\x7d" ctxT1 [] emptyState).2.log := by
  decide

/-- C3 amended: when the compiler meets a reference `p` that is already
present in the parent chain it received (the transitive case: for
`A → B → A` the compile of `B` runs with chain `[A]` and meets `A`),
compilation fails with the cycle error naming `parentChain -> p` — for
`A → B → A` that is `[A] -> A`, not the full `[A, B, A]` — and it does
so before any I/O and before any Generator call for that placeholder:
the state is unchanged except for the compiling log line.  A direct
top-level self-reference is not caught by this check and instead goes
through source resolution, as the counterexample shows.  (Stated for
the first reference of the template.) -/
theorem C3_cycle_check_on_parent_chain (S : Stores) (ph : String → Nat) (f : Nat)
    (name raw_prompt p : String) (rest : List String) (ctx : ExecutionContext)
    (parent_names : List String) (st : RState)
    (hscan : scanPlaceholders raw_prompt = p :: rest)
    (hsplit : splitColon p.data = [p.data])
    (hstrip : pyStrip p.data = p.data)
    (hpar : p ∈ parent_names) :
    compile_prompt S ph (f + 2) name raw_prompt ctx parent_names st =
    (.error ("Circular dependency detected: " ++ pyListRepr parent_names ++ " -> " ++ p),
     pushLog st ("Compiling prompt for " ++ name ++ "...")) := by
  rw [compile_prompt]
  simp only [hscan, List.cons_ne_nil, if_false]
  rw [compileLoop]
  simp [hsplit, hstrip, hpar]

theorem C3_cycle_check_witness :
    compile_prompt emptyStores phZero 2 "B" "$\x7bA\x7d" ctxT1 ["A"] emptyState =
    (.error ("Circular dependency detected: " ++ pyListRepr ["A"] ++ " -> " ++ "A"),
     pushLog emptyState ("Compiling prompt for " ++ "B" ++ "...")) :=
  C3_cycle_check_on_parent_chain emptyStores phZero 0 "B" "$\x7bA\x7d" "A" [] ctxT1 ["A"]
    emptyState (by decide) (by decide) (by decide) (by decide)

/-! ## C5: one fetch per occurrence, not per name -/

/-- C5 counterexample: the claim says one compile pass performs exactly
one fetch per placeholder name with no duplicate per-source log
messages.  The code iterates over every scanned occurrence: compiling
a template holding `x` twice (with an override for `x`) resolves `x`
twice, and the override-used message appears twice in the log. -/
theorem C5_counterexample :
    (compile_prompt emptyStores phZero 20 "t" "$\x7bx\x7d $\x7bx\x7d" ctxC5 [] emptyState).1 =
      .ok (.scalar "v v") ∧
    ((compile_prompt emptyStores phZero 20 "t" "$\x7bx\x7d $\x7bx\x7d" ctxC5 [] emptyState).2.log.count
      "Using placeholder override for x..." = 2 ∧
     (compile_prompt emptyStores phZero 20 "t" "$\x7bx\x7d $\x7bx\x7d" ctxC5 [] emptyState).2.log.count
      "Getting value for x..." = 2) := by
  decide

/-- C5 amended: one compile pass performs one fetch per scanned
occurrence of a name, not one per distinct name: a template whose scan
yields the same override-resolved name twice produces the
getting-value and override-used log lines twice (in scan order), the
last fetch's value is the one stored, and compilation succeeds with
the substituted template. -/
theorem C5_fetch_per_occurrence (S : Stores) (ph : String → Nat) (f : Nat)
    (name raw_prompt x v : String) (ctx : ExecutionContext)
    (parent_names : List String) (st : RState)
    (hscan : scanPlaceholders raw_prompt = [x, x])
    (hsplit : splitColon x.data = [x.data])
    (hstrip : pyStrip x.data = x.data)
    (hpar : x ∉ parent_names)
    (hval : validName x = true)
    (hov : lookupD ctx.overrides x = some v)
    (hig : should_ignore .overrides x ctx.ignore = false)
    (hvscan : scanPlaceholders v = []) :
    compile_prompt S ph (f + 4) name raw_prompt ctx parent_names st =
    (.ok (.scalar (pattern_sub x (escape_backslashes v) raw_prompt)),
     pushLog (pushLog (pushLog (pushLog (pushLog st
       ("Compiling prompt for " ++ name ++ "..."))
       ("Getting value for " ++ x ++ "..."))
       ("Using placeholder override for " ++ x ++ "..."))
       ("Getting value for " ++ x ++ "..."))
       ("Using placeholder override for " ++ x ++ "...")) := by
  rw [compile_prompt]
  simp only [hscan, List.cons_ne_nil, if_false]
  rw [compileLoop]
  simp [hsplit, hstrip, hpar, hval, fetch_placeholder, hov, hig, compileLoop, compile_prompt,
    hvscan, value_variations, name_for_variation, isMulti, dictUpd, listProd, scalarText]

theorem C5_fetch_per_occurrence_witness :
    compile_prompt emptyStores phZero 4 "t" "$\x7bx\x7d $\x7bx\x7d" ctxC5 [] emptyState =
    (.ok (.scalar (pattern_sub "x" (escape_backslashes "v") "$\x7bx\x7d $\x7bx\x7d")),
     pushLog (pushLog (pushLog (pushLog (pushLog emptyState
       ("Compiling prompt for " ++ "t" ++ "..."))
       ("Getting value for " ++ "x" ++ "..."))
       ("Using placeholder override for " ++ "x" ++ "..."))
       ("Getting value for " ++ "x" ++ "..."))
       ("Using placeholder override for " ++ "x" ++ "...")) :=
  C5_fetch_per_occurrence emptyStores phZero 0 "t" "$\x7bx\x7d $\x7bx\x7d" "x" "v" ctxC5 []
    emptyState (by decide) (by decide) (by decide) (by decide) (by decide) (by decide)
    (by decide) (by decide)

/-! ## C10: empty stored values -/

/-- C10: for every source other than overrides, a stored value equal to
the empty string is treated as absent.  With an empty golden file, an
empty most-recent-target output, an empty include file and an empty
prompts file all present for the name, resolution in a context whose
overrides lack the name fails with the placeholder-not-found error and
produces no log message at all (no found-or-skipped line for any
source); and in a context whose overrides map the name to the empty
string, the empty string is found (membership is by key) and
returned. -/
theorem C10_empty_value_fallthrough (S : Stores) (ph : String → Nat) (f : Nat)
    (name ts : String) (ctx1 ctx2 : ExecutionContext) (parent_names : List String) (st : RState)
    (hgold : S.golden name = some (.scalar ""))
    (hinc : S.includes name = some (.scalar ""))
    (hpr : S.prompts name = some (.scalar ""))
    (hlat : lookupD st.latest name = some ts)
    (hrun : lookupD st.runs (name, ts) = some [(name, "")])
    (hov1 : lookupD ctx1.overrides name = none)
    (hov2 : lookupD ctx2.overrides name = some "")
    (hig2 : should_ignore .overrides name ctx2.ignore = false) :
    fetch_placeholder S ph (f + 2) name ctx1 parent_names st =
      (.error ("Could not find value for placeholder " ++ name), st) ∧
    fetch_placeholder S ph (f + 2) name ctx2 parent_names st =
      (.ok (.scalar ""), pushLog st ("Using placeholder override for " ++ name ++ "...")) := by
  constructor
  · rw [fetch_placeholder]
    simp [hov1, fpStep2, fpStep3, fpStep4, fpStep5, fetch_prompt, fetch_most_recent_target,
      hgold, hinc, hpr, hlat, hrun, pyTruthy, pyTruthyO]
  · rw [fetch_placeholder]
    simp [hov2, hig2]

theorem C10_empty_value_witness :
    fetch_placeholder storesC10 phZero 2 "n" ctxT1 [] stateC10 =
      (.error ("Could not find value for placeholder " ++ "n"), stateC10) ∧
    fetch_placeholder storesC10 phZero 2 "n" ctxC10 [] stateC10 =
      (.ok (.scalar ""), pushLog stateC10 ("Using placeholder override for " ++ "n" ++ "...")) :=
  C10_empty_value_fallthrough storesC10 phZero 0 "n" "T0" ctxT1 ctxC10 [] stateC10
    (by decide) (by decide) (by decide) (by decide) (by decide) (by decide) (by decide)
    (by decide)

/-! ## C2: the `_latest` pointer and run completion -/

theorem lookupD_dictUpd_self {κ α : Type} [DecidableEq κ] (m : List (κ × α)) (k : κ) (v : α) :
    lookupD (dictUpd m k v) k = some v := by
  induction m with
  | nil => simp [dictUpd, lookupD]
  | cons hd t ih =>
    obtain ⟨k1, v1⟩ := hd
    by_cases h : k1 = k <;> simp [dictUpd, lookupD, h, ih]

theorem lookupD_dictUpd_ne {κ α : Type} [DecidableEq κ] (m : List (κ × α)) (k1 k2 : κ) (v : α)
    (h : k1 ≠ k2) : lookupD (dictUpd m k1 v) k2 = lookupD m k2 := by
  induction m with
  | nil => simp [dictUpd, lookupD, h]
  | cons hd t ih =>
    obtain ⟨k3, v3⟩ := hd
    by_cases h3 : k3 = k1 <;> simp [dictUpd, lookupD, h3, h, ih]

theorem runFile_pushLog (st : RState) (m n t vn : String) :
    runFile (pushLog st m) n t vn = runFile st n t vn := rfl

theorem infoFile_pushLog (st : RState) (m n t vn : String) :
    infoFile (pushLog st m) n t vn = infoFile st n t vn := rfl

theorem runFile_writeInfoPrompt (st : RState) (n1 t1 vn1 c n t vn : String) :
    runFile (writeInfoPrompt st n1 t1 vn1 c) n t vn = runFile st n t vn := rfl

theorem infoFile_writeOutput (st : RState) (n1 t1 vn1 c n t vn : String) :
    infoFile (writeOutput st n1 t1 vn1 c) n t vn = infoFile st n t vn := rfl

theorem runFile_writeOutput_self (st : RState) (n t vn c : String) :
    runFile (writeOutput st n t vn c) n t vn = some c := by
  simp [runFile, writeOutput, writeFileIn, lookupD_dictUpd_self]

theorem infoFile_writeInfoPrompt_self (st : RState) (n t vn c : String) :
    infoFile (writeInfoPrompt st n t vn c) n t vn = some c := by
  simp [infoFile, writeInfoPrompt, writeFileIn, lookupD_dictUpd_self]

theorem runFile_writeOutput_ne (st : RState) (n t vn1 vn2 c : String) (h : vn1 ≠ vn2) :
    runFile (writeOutput st n t vn1 c) n t vn2 = runFile st n t vn2 := by
  simp [runFile, writeOutput, writeFileIn, lookupD_dictUpd_self, lookupD_dictUpd_ne, h]

theorem infoFile_writeInfoPrompt_ne (st : RState) (n t vn1 vn2 c : String) (h : vn1 ≠ vn2) :
    infoFile (writeInfoPrompt st n t vn1 c) n t vn2 = infoFile st n t vn2 := by
  simp [infoFile, writeInfoPrompt, writeFileIn, lookupD_dictUpd_self, lookupD_dictUpd_ne, h]

theorem latest_pushLog (st : RState) (m : String) : (pushLog st m).latest = st.latest := rfl

/-- Files already persisted for a variation name that the remaining loop
entries do not mention are untouched by the rest of the loop. -/
theorem execLoop_keep (S : Stores) (name ts vn : String) :
    ∀ (entries : List (String × String)) (st : RState), vn ∉ entries.map Prod.fst →
    runFile (execLoop S name ts entries st).2 name ts vn = runFile st name ts vn ∧
    infoFile (execLoop S name ts entries st).2 name ts vn = infoFile st name ts vn := by
  intro entries
  induction entries with
  | nil => intro st _; exact ⟨rfl, rfl⟩
  | cons hd rest ih =>
    obtain ⟨vn1, p1⟩ := hd
    intro st hmem
    simp only [List.map_cons, List.mem_cons, not_or] at hmem
    obtain ⟨hne, hrest⟩ := hmem
    have hne1 : vn1 ≠ vn := fun he => hne he.symm
    rcases hllm : S.llm p1 with _ | out
    · simp [execLoop, hllm, runFile, infoFile, pushLog]
    · simp only [execLoop, hllm]
      rw [(ih _ hrest).1, (ih _ hrest).2]
      simp [runFile_pushLog, infoFile_pushLog, runFile_writeInfoPrompt, infoFile_writeOutput,
        runFile_writeOutput_ne, infoFile_writeInfoPrompt_ne, hne1]

theorem rvp_keep (S : Stores) (name ts vn : String) (entries : List (String × String))
    (st : RState) (h : vn ∉ entries.map Prod.fst) :
    runFile (runVariationsAndPublish S name ts entries st).2 name ts vn = runFile st name ts vn ∧
    infoFile (runVariationsAndPublish S name ts entries st).2 name ts vn = infoFile st name ts vn := by
  have hk := execLoop_keep S name ts vn entries st h
  unfold runVariationsAndPublish
  rcases hl : execLoop S name ts entries st with ⟨r, st1⟩
  rw [hl] at hk
  cases r
  · exact hk
  · exact hk

/-- C2 counterexample: the claim says a generator failure on any
variation leaves the template name's latest pointer exactly as it was
before the run.  But the compile phase itself can publish: for the
top-level template `A` whose text is the reference to `A`, resolution
of `A` reaches the prompts source, which executes `prompts/A` as a
nested run of the same name and publishes `_latest` for `A` before the
top-level generation even starts.  When the top-level generator call
then fails, the run aborts with the pointer changed from its pre-run
value (and pointing at the shared, partially-written timestamp
directory). -/
theorem C2_counterexample :
    (execute_prompt storesC2 phZero 50 "A" "$\x7bA\x7d" ctxT1 [] emptyState).1 =
      .error "SystemExit: 1" ∧
    lookupD (execute_prompt storesC2 phZero 50 "A" "$\x7bA\x7d" ctxT1 [] emptyState).2.latest "A" =
      some "T1" ∧
    lookupD emptyState.latest "A" = none := by
  decide

/-- C2 amended: the generation-and-publish phase of a run (lines
294-324, `runVariationsAndPublish`) updates the template name's latest
pointer only after the generated output and the exact compiled prompt
of every variation have been persisted, and if the Generator fails on
any variation this phase aborts leaving the pointer exactly as it
received it.  (The pointer may still change during the preceding
compile phase when placeholder resolution executes a nested prompt run
under the same name, as the counterexample shows.) -/
theorem C2_latest_only_after_full_run (S : Stores) (name ts : String)
    (entries : List (String × String)) (st : RState)
    (hnd : (entries.map Prod.fst).Nodup) :
    (∀ e, (runVariationsAndPublish S name ts entries st).1 = .error e →
        (runVariationsAndPublish S name ts entries st).2.latest = st.latest) ∧
    ((runVariationsAndPublish S name ts entries st).1 = .ok () →
        (runVariationsAndPublish S name ts entries st).2.latest = dictUpd st.latest name ts ∧
        ∀ vp ∈ entries, ∃ out, S.llm vp.2 = some out ∧
          runFile (runVariationsAndPublish S name ts entries st).2 name ts vp.1 = some out ∧
          infoFile (runVariationsAndPublish S name ts entries st).2 name ts vp.1 = some vp.2) := by
  induction entries generalizing st with
  | nil =>
    refine ⟨fun e he => ?_, fun _ => ⟨rfl, ?_⟩⟩
    · simp [runVariationsAndPublish, execLoop] at he
    · intro vp hvp
      simp at hvp
  | cons hd rest ih =>
    obtain ⟨vn, p⟩ := hd
    simp only [List.map_cons, List.nodup_cons] at hnd
    obtain ⟨hvn, hndr⟩ := hnd
    rcases hllm : S.llm p with _ | out
    · constructor
      · intro e he
        simp [runVariationsAndPublish, execLoop, hllm, latest_pushLog]
      · intro hok
        rw [runVariationsAndPublish] at hok
        simp only [execLoop, hllm] at hok
        simp at hok
    · have heq : runVariationsAndPublish S name ts ((vn, p) :: rest) st =
          runVariationsAndPublish S name ts rest
            (pushLog (writeInfoPrompt (writeOutput (pushLog st
              ("Running llm command for " ++ name ++ " / " ++ vn ++ "...")) name ts vn out)
              name ts vn p)
              ("Output saved to ./target/" ++ name ++ "/" ++ ts ++ "/" ++ vn ++ ".txt")) := by
        simp only [runVariationsAndPublish, execLoop, hllm]
      set st4 := pushLog (writeInfoPrompt (writeOutput (pushLog st
        ("Running llm command for " ++ name ++ " / " ++ vn ++ "...")) name ts vn out)
        name ts vn p)
        ("Output saved to ./target/" ++ name ++ "/" ++ ts ++ "/" ++ vn ++ ".txt") with hst4
      rw [heq]
      have hlat4 : st4.latest = st.latest := rfl
      obtain ⟨ihErr, ihOk⟩ := ih st4 hndr
      constructor
      · intro e he
        rw [ihErr e he, hlat4]
      · intro hok
        obtain ⟨hl, hrest⟩ := ihOk hok
        refine ⟨by rw [hl, hlat4], ?_⟩
        intro vp hvp
        rcases List.mem_cons.mp hvp with hvp1 | hvp2
        · subst hvp1
          refine ⟨out, hllm, ?_, ?_⟩
          · rw [(rvp_keep S name ts vn rest st4 hvn).1]
            show runFile st4 name ts vn = some out
            rw [hst4, runFile_pushLog, runFile_writeInfoPrompt, runFile_writeOutput_self]
          · rw [(rvp_keep S name ts vn rest st4 hvn).2]
            show infoFile st4 name ts vn = some p
            rw [hst4, infoFile_pushLog, infoFile_writeInfoPrompt_self]
        · exact hrest vp hvp2

theorem C2_latest_witness :
    (runVariationsAndPublish storesC2 "A" "T1" [("A", "hello")] emptyState).1 = .ok () ∧
    (runVariationsAndPublish storesC2 "A" "T1" [("A", "hello")] emptyState).2.latest =
      dictUpd emptyState.latest "A" "T1" :=
  ⟨by decide,
   ((C2_latest_only_after_full_run storesC2 "A" "T1" [("A", "hello")] emptyState (by decide)).2
     (by decide)).1⟩

/-! ## C7: substitution is directive-insensitive and consistent -/

theorem stripPrefixCh_self_append (a b : List Char) : stripPrefixCh a (a ++ b) = some b := by
  induction a with
  | nil => simp [stripPrefixCh]
  | cons c t ih => simp [stripPrefixCh, ih]

theorem stripPrefixCh_length (nm : List Char) :
    ∀ (l r : List Char), stripPrefixCh nm l = some r → r.length ≤ l.length := by
  induction nm with
  | nil => intro l r h; simp [stripPrefixCh] at h; subst h; exact le_rfl
  | cons c t ih =>
    intro l r h
    cases l with
    | nil => simp [stripPrefixCh] at h
    | cons c1 l1 =>
      by_cases hc : c = c1
      · simp [stripPrefixCh, hc] at h
        exact (ih l1 r h).trans (by simp)
      · simp [stripPrefixCh, hc] at h

theorem dropToBrace_length : ∀ (l r : List Char), dropToBrace l = some r → r.length < l.length := by
  intro l
  induction l with
  | nil => intro r h; simp [dropToBrace] at h
  | cons c t ih =>
    intro r h
    by_cases hc : c = '}'
    · rw [dropToBrace, if_pos hc] at h
      cases h
      simp
    · rw [dropToBrace, if_neg hc] at h
      exact (ih r h).trans (by simp)

theorem dropToBrace_append (d post : List Char) (hd : '}' ∉ d) :
    dropToBrace (d ++ '}' :: post) = some post := by
  induction d with
  | nil => simp [dropToBrace]
  | cons c t ih =>
    simp only [List.mem_cons, not_or] at hd
    obtain ⟨hc, ht⟩ := hd
    rw [List.cons_append, dropToBrace, if_neg (fun he => hc he.symm)]
    exact ih ht

theorem matchRef_length (nm : List Char) :
    ∀ (l r : List Char), matchRef nm l = some r → r.length < l.length := by
  intro l r h
  cases l with
  | nil => simp [matchRef] at h
  | cons c1 l1 =>
    cases l1 with
    | nil => simp [matchRef] at h
    | cons c2 t =>
      rw [matchRef] at h
      by_cases h12 : c1 = '$' ∧ c2 = '{'
      · rw [if_pos h12] at h
        rcases hs : stripPrefixCh nm t with _ | t2
        · rw [hs] at h; exact absurd h (by simp)
        · rw [hs] at h
          dsimp only at h
          have hlen2 := stripPrefixCh_length nm t t2 hs
          cases t2 with
          | nil => exact absurd h (by simp)
          | cons c3 r2 =>
            dsimp only at h
            by_cases h3 : c3 = '}'
            · rw [if_pos h3] at h
              cases h
              simp only [List.length_cons] at hlen2 ⊢
              omega
            · rw [if_neg h3] at h
              by_cases h4 : c3 = ':'
              · rw [if_pos h4] at h
                have := dropToBrace_length r2 r h
                simp only [List.length_cons] at hlen2 ⊢
                omega
              · rw [if_neg h4] at h; exact absurd h (by simp)
      · rw [if_neg h12] at h; exact absurd h (by simp)

theorem matchRef_plain (x rest : List Char) :
    matchRef x ('$' :: '{' :: (x ++ '}' :: rest)) = some rest := by
  simp [matchRef, stripPrefixCh_self_append]

theorem matchRef_directive (x d rest : List Char) (hd : '}' ∉ d) :
    matchRef x ('$' :: '{' :: (x ++ ':' :: (d ++ '}' :: rest))) = some rest := by
  simp [matchRef, stripPrefixCh_self_append, dropToBrace_append d rest hd]

theorem matchRef_none_of_ne (nm : List Char) (c : Char) (cs : List Char) (hc : c ≠ '$') :
    matchRef nm (c :: cs) = none := by
  cases cs with
  | nil => rfl
  | cons c2 t => simp [matchRef, hc]

theorem substAux_irrel (nm repl : List Char) :
    ∀ (n : Nat) (l : List Char), l.length = n → ∀ (f : Nat), n ≤ f →
      substAux nm repl f l = substAux nm repl n l := by
  intro n
  induction n using Nat.strong_induction_on with
  | _ n ih =>
    intro l hl f hf
    cases l with
    | nil =>
      subst hl
      cases f <;> rfl
    | cons c cs =>
      have hn : n = cs.length + 1 := by simp [hl.symm]
      subst hn
      obtain ⟨g, rfl⟩ : ∃ g, f = g + 1 := ⟨f - 1, by omega⟩
      rcases hm : matchRef nm (c :: cs) with _ | r
      · simp only [substAux, hm]
        have h1 := ih cs.length (by omega) cs rfl g (by omega)
        rw [h1]
      · have hr := matchRef_length nm (c :: cs) r hm
        simp only [List.length_cons] at hr
        simp only [substAux, hm]
        have h1 := ih r.length (by omega) r rfl g (by omega)
        have h2 := ih r.length (by omega) r rfl cs.length (by omega)
        rw [h1, h2]

theorem substAux_nodollar (nm repl : List Char) :
    ∀ (l : List Char), '$' ∉ l → ∀ (f : Nat), substAux nm repl f l = l := by
  intro l
  induction l with
  | nil => intro _ f; cases f <;> rfl
  | cons c cs ih =>
    intro hmem f
    simp only [List.mem_cons, not_or] at hmem
    obtain ⟨hc, hcs⟩ := hmem
    cases f with
    | zero => rfl
    | succ g =>
      rw [substAux, matchRef_none_of_ne nm c cs (fun he => hc he.symm)]
      rw [ih hcs g]

theorem substAux_skip (nm repl : List Char) :
    ∀ (pre rest : List Char), '$' ∉ pre → ∀ (f : Nat), (pre ++ rest).length ≤ f →
      substAux nm repl f (pre ++ rest) = pre ++ substAux nm repl rest.length rest := by
  intro pre
  induction pre with
  | nil =>
    intro rest _ f hf
    simp only [List.nil_append] at hf ⊢
    exact substAux_irrel nm repl rest.length rest rfl f hf
  | cons c pre1 ih =>
    intro rest hmem f hf
    simp only [List.mem_cons, not_or] at hmem
    obtain ⟨hc, hpre1⟩ := hmem
    simp only [List.cons_append, List.length_cons] at hf ⊢
    obtain ⟨g, rfl⟩ : ∃ g, f = g + 1 := ⟨f - 1, by omega⟩
    rw [substAux, matchRef_none_of_ne nm c (pre1 ++ rest) (fun he => hc he.symm)]
    rw [ih rest hpre1 g (by omega)]

theorem substAux_ref_plain (x repl rest : List Char) (f : Nat)
    (hf : ('$' :: '{' :: (x ++ '}' :: rest)).length ≤ f) :
    substAux x repl f ('$' :: '{' :: (x ++ '}' :: rest)) =
      repl ++ substAux x repl rest.length rest := by
  simp only [List.length_cons, List.length_append] at hf
  obtain ⟨g, rfl⟩ : ∃ g, f = g + 1 := ⟨f - 1, by omega⟩
  rw [substAux, matchRef_plain]
  dsimp only
  rw [substAux_irrel x repl rest.length rest rfl g (by omega)]

theorem substAux_ref_directive (x repl d rest : List Char) (hd : '}' ∉ d) (f : Nat)
    (hf : ('$' :: '{' :: (x ++ ':' :: (d ++ '}' :: rest))).length ≤ f) :
    substAux x repl f ('$' :: '{' :: (x ++ ':' :: (d ++ '}' :: rest))) =
      repl ++ substAux x repl rest.length rest := by
  simp only [List.length_cons, List.length_append] at hf
  obtain ⟨g, rfl⟩ : ∃ g, f = g + 1 := ⟨f - 1, by omega⟩
  rw [substAux, matchRef_directive x d rest hd]
  dsimp only
  rw [substAux_irrel x repl rest.length rest rfl g (by omega)]

theorem flatEsc_eq_nil (cs : List Char)
    (h : cs.flatMap (fun c => if c = '\\' then ['\\', '\\'] else [c]) = []) : cs = [] := by
  cases cs with
  | nil => rfl
  | cons c t =>
    rw [List.flatMap_cons] at h
    by_cases hc : c = '\\' <;> simp [hc] at h

theorem replUnescape_escape (l : List Char) :
    replUnescape (l.flatMap (fun c => if c = '\\' then ['\\', '\\'] else [c])) = l := by
  induction l with
  | nil => rfl
  | cons c cs ih =>
    rw [List.flatMap_cons]
    by_cases hc : c = '\\'
    · subst hc
      rw [if_pos rfl, List.cons_append, List.cons_append, List.nil_append]
      rw [replUnescape]
      simp [ih]
    · rw [if_neg hc, List.cons_append, List.nil_append]
      rcases hcs : cs.flatMap (fun c => if c = '\\' then ['\\', '\\'] else [c]) with _ | ⟨c2, t⟩
      · rw [flatEsc_eq_nil cs hcs]
        rfl
      · rw [replUnescape, if_neg (fun hand => hc hand.1)]
        rw [← hcs, ih]

theorem substAux_two_refs (x repl pre mid post d : List Char)
    (hpre : '$' ∉ pre) (hmid : '$' ∉ mid) (hpost : '$' ∉ post) (hd : '}' ∉ d)
    (f : Nat)
    (hf : (pre ++ '$' :: '{' :: (x ++ '}' ::
            (mid ++ '$' :: '{' :: (x ++ ':' :: (d ++ '}' :: post))))).length ≤ f) :
    substAux x repl f
      (pre ++ '$' :: '{' :: (x ++ '}' :: (mid ++ '$' :: '{' :: (x ++ ':' :: (d ++ '}' :: post))))) =
    pre ++ repl ++ mid ++ repl ++ post := by
  rw [substAux_skip x repl pre _ hpre f hf]
  rw [substAux_ref_plain x repl _ _ le_rfl]
  rw [substAux_skip x repl mid _ hmid _ le_rfl]
  rw [substAux_ref_directive x repl d post hd _ le_rfl]
  rw [substAux_nodollar x repl post hpost]
  simp [List.append_assoc]


theorem strData_append (a b : String) : (a ++ b).data = a.data ++ b.data := rfl

/-- C7: the substitution step of one compile pass (lines 251-262,
`pattern_sub` with the backslash-escaped value) replaces every
occurrence of a placeholder independently of any directive suffix:
in a template containing both the plain reference and a
directive-suffixed reference to the same name, both receive the
identical scalar value of that variation.  `pre`, `mid`, `post` are
arbitrary reference-free surrounding texts and `d` an arbitrary
directive suffix. -/
theorem C7_directive_insensitive (x v pre mid post d : String)
    (hpre : '$' ∉ pre.data) (hmid : '$' ∉ mid.data) (hpost : '$' ∉ post.data)
    (hd : '}' ∉ d.data) :
    pattern_sub x (escape_backslashes v)
      (pre ++ "$\x7b" ++ x ++ "\x7d" ++ mid ++ "$\x7b" ++ x ++ ":" ++ d ++ "\x7d" ++ post) =
    pre ++ v ++ mid ++ v ++ post := by
  have h1 : ("$\x7b" : String).data = ['$', '{'] := rfl
  have h2 : ("\x7d" : String).data = ['}'] := rfl
  have h3 : (":" : String).data = [':'] := rfl
  have hdata : (pre ++ "$\x7b" ++ x ++ "\x7d" ++ mid ++ "$\x7b" ++ x ++ ":" ++ d ++ "\x7d" ++ post).data =
      pre.data ++ '$' :: '{' :: (x.data ++ '}' :: (mid.data ++ '$' :: '{' ::
        (x.data ++ ':' :: (d.data ++ '}' :: post.data)))) := by
    simp [strData_append, h1, h2, h3]
  have hrepl : replUnescape (escape_backslashes v).data = v.data := replUnescape_escape v.data
  rw [pattern_sub, hdata, hrepl]
  rw [substAux_two_refs x.data v.data pre.data mid.data post.data d.data hpre hmid hpost hd _ le_rfl]
  rfl

theorem C7_directive_witness :
    pattern_sub "x" (escape_backslashes "VAL")
      ("a " ++ "$\x7b" ++ "x" ++ "\x7d" ++ " b " ++ "$\x7b" ++ "x" ++ ":" ++ "multi" ++ "\x7d" ++ " c") =
    "a " ++ "VAL" ++ " b " ++ "VAL" ++ " c" :=
  C7_directive_insensitive "x" "VAL" "a " " b " " c" "multi"
    (by decide) (by decide) (by decide) (by decide)

/-! ## C8: the Multi directive on a scalar -/

theorem mem_map_fst_dictUpd {α : Type} (m : List (String × α)) (k a : String) (v : α) :
    a ∈ (dictUpd m k v).map Prod.fst ↔ a ∈ m.map Prod.fst ∨ a = k := by
  induction m with
  | nil => simp [dictUpd]
  | cons hd t ih =>
    obtain ⟨k1, v1⟩ := hd
    by_cases h : k1 = k
    · subst h
      simp [dictUpd]
      tauto
    · simp [dictUpd, h, ih]
      tauto

theorem nodup_keys_dictUpd {α : Type} (m : List (String × α)) (k : String) (v : α)
    (h : (m.map Prod.fst).Nodup) : ((dictUpd m k v).map Prod.fst).Nodup := by
  induction m with
  | nil => simp [dictUpd]
  | cons hd t ih =>
    obtain ⟨k1, v1⟩ := hd
    simp only [List.map_cons, List.nodup_cons] at h
    obtain ⟨hk1, ht⟩ := h
    by_cases he : k1 = k
    · subst he
      simp [dictUpd, hk1, ht]
    · simp only [dictUpd, if_neg he, List.map_cons, List.nodup_cons]
      refine ⟨?_, ih ht⟩
      rw [mem_map_fst_dictUpd]
      rintro (h1 | h2)
      · exact hk1 h1
      · exact he h2

theorem multiFold_lookup :
    ∀ (lines : List String) (acc : List (String × String)) (l : String),
    lookupD (lines.foldl (fun acc line => if line ≠ "" then dictUpd acc line line else acc) acc) l =
    if l ∈ lines ∧ l ≠ "" then some l else lookupD acc l := by
  intro lines
  induction lines with
  | nil => intro acc l; simp
  | cons ln rest ih =>
    intro acc l
    rw [List.foldl_cons, ih]
    by_cases hln : ln ≠ ""
    · rw [if_pos hln]
      by_cases hmem : l ∈ rest ∧ l ≠ ""
      · rw [if_pos hmem, if_pos ⟨List.mem_cons_of_mem ln hmem.1, hmem.2⟩]
      · rw [if_neg hmem]
        by_cases hl : l = ln
        · subst hl
          rw [lookupD_dictUpd_self, if_pos ⟨List.mem_cons_self l rest, hln⟩]
        · rw [lookupD_dictUpd_ne acc ln l ln (fun he => hl he.symm)]
          rw [if_neg (fun hc => ?_)]
          rcases List.mem_cons.mp hc.1 with h1 | h2
          · exact hl h1
          · exact hmem ⟨h2, hc.2⟩
    · rw [if_neg hln]
      push_neg at hln
      subst hln
      by_cases hmem : l ∈ rest ∧ l ≠ ""
      · rw [if_pos hmem, if_pos ⟨List.mem_cons_of_mem _ hmem.1, hmem.2⟩]
      · rw [if_neg hmem, if_neg (fun hc => ?_)]
        rcases List.mem_cons.mp hc.1 with h1 | h2
        · exact hc.2 h1
        · exact hmem ⟨h2, hc.2⟩

theorem multiFold_nodup :
    ∀ (lines : List String) (acc : List (String × String)), (acc.map Prod.fst).Nodup →
    (((lines.foldl (fun acc line => if line ≠ "" then dictUpd acc line line else acc) acc)).map
      Prod.fst).Nodup := by
  intro lines
  induction lines with
  | nil => intro acc h; exact h
  | cons ln rest ih =>
    intro acc h
    rw [List.foldl_cons]
    by_cases hln : ln ≠ ""
    · rw [if_pos hln]
      exact ih _ (nodup_keys_dictUpd acc ln ln h)
    · rw [if_neg hln]
      exact ih _ h

/-- C8 amended: applying the Multi directive to a scalar splits it on
Python line boundaries and keeps the non-empty lines as a mapping in
which every distinct non-empty line is one entry, keyed by the line
with the line itself as value (duplicate lines collapse into a single
entry, as the counterexample shows; an entry per occurrence is
impossible in a mapping). -/
theorem C8_multi_split_characterization (s : String) :
    (∀ l, lookupD (multiSplitDict s) l =
      if l ∈ pySplitlines s ∧ l ≠ "" then some l else none) ∧
    ((multiSplitDict s).map Prod.fst).Nodup := by
  constructor
  · intro l
    rw [multiSplitDict, multiFold_lookup]
    simp [lookupD]
  · rw [multiSplitDict]
    exact multiFold_nodup (pySplitlines s) [] (by simp)

/-- C8 counterexample: the claim promises one entry per non-empty line
of the scalar; on a scalar whose two non-empty lines are equal the
mapping has a single entry. -/
theorem C8_counterexample :
    (multiSplitDict "a\na").length = 1 ∧
    ((pySplitlines "a\na").filter (fun l => l ≠ "")).length = 2 := by
  decide

/-! ## C6: cartesian expansion and variation naming -/

theorem append_underscore_inj (a : List Char) :
    ∀ (c x y : List Char), '_' ∉ a → '_' ∉ c →
    a ++ '_' :: x = c ++ '_' :: y → a = c ∧ x = y := by
  induction a with
  | nil =>
    intro c x y _ hc h
    cases c with
    | nil => simpa using h
    | cons c1 t =>
      simp only [List.nil_append, List.cons_append, List.cons.injEq] at h
      exact absurd (h.1 ▸ List.mem_cons_self c1 t) (h.1 ▸ hc)
  | cons a1 t ih =>
    intro c x y ha hc h
    simp only [List.mem_cons, not_or] at ha
    cases c with
    | nil =>
      simp only [List.cons_append, List.nil_append, List.cons.injEq] at h
      exact absurd h.1 (fun he2 => ha.1 he2.symm)
    | cons c1 t1 =>
      simp only [List.cons_append, List.cons.injEq] at h
      simp only [List.mem_cons, not_or] at hc
      obtain ⟨he, hrest⟩ := h
      obtain ⟨hac, hxy⟩ := ih t1 x y ha.2 hc.2 hrest
      exact ⟨by rw [he, hac], hxy⟩

theorem join2_ne (a b c d : String) (ha : '_' ∉ a.data) (hc : '_' ∉ c.data)
    (h : a ≠ c ∨ b ≠ d) : a ++ "_" ++ b ≠ c ++ "_" ++ d := by
  intro he
  have hdata : a.data ++ '_' :: b.data = c.data ++ '_' :: d.data := by
    have : (a ++ "_" ++ b).data = (c ++ "_" ++ d).data := by rw [he]
    simpa [strData_append] using this
  obtain ⟨h1, h2⟩ := append_underscore_inj a.data c.data b.data d.data ha hc hdata
  rcases h with h | h
  · exact h (by apply String.ext; exact h1)
  · exact h (by apply String.ext; exact h2)

theorem intercalate_two (a b : String) : String.intercalate "_" [a, b] = a ++ "_" ++ b := by
  simp [String.intercalate, String.intercalate.go]

theorem value_variations_two_by_three (k1 k2 m1 m2 m3 t1 t2 u1 u2 u3 w : String)
    (ht12 : t1 ≠ t2)
    (ht1u1 : t1 ≠ u1) (ht1u2 : t1 ≠ u2) (ht1u3 : t1 ≠ u3)
    (ht2u1 : t2 ≠ u1) (ht2u2 : t2 ≠ u2) (ht2u3 : t2 ≠ u3)
    (hu12 : u1 ≠ u2) (hu13 : u1 ≠ u3) (hu23 : u2 ≠ u3) :
    value_variations [("X", .multi [(k1, t1), (k2, t2)]), ("S", .scalar w),
        ("Y", .multi [(m1, u1), (m2, u2), (m3, u3)])] =
      ([[("S", w), ("X", t1), ("Y", u1)], [("S", w), ("X", t1), ("Y", u2)],
        [("S", w), ("X", t1), ("Y", u3)], [("S", w), ("X", t2), ("Y", u1)],
        [("S", w), ("X", t2), ("Y", u2)], [("S", w), ("X", t2), ("Y", u3)]],
       ["X", "Y"],
       [(t1, k1), (u1, m1), (u2, m2), (u3, m3), (t2, k2)]) := by
  simp [value_variations, isMulti, scalarText, listProd, dictUpd, lookupD,
    ht12, ht1u1, ht1u2, ht1u3, ht2u1, ht2u2, ht2u3, hu12, hu13, hu23,
    Ne.symm ht12, Ne.symm ht1u1, Ne.symm ht1u2, Ne.symm ht1u3, Ne.symm ht2u1,
    Ne.symm ht2u2, Ne.symm ht2u3, Ne.symm hu12, Ne.symm hu13, Ne.symm hu23]

/-- C6 amended: for a placeholder map with `X` multi-valued with two
entries, a scalar `S`, and `Y` multi-valued with three entries,
variation expansion produces exactly 6 variations — the cartesian
product, each picking one full-text entry per multi-valued name — the
scalar placeholder holds the identical value in all 6, and each
variation's name is the pair of short keys joined by an underscore,
the 6 names pairwise distinct, PROVIDED the entry texts are pairwise
distinct and the short keys are pairwise distinct, sanitization-stable,
underscore-free and at most 32 characters (the counterexample shows
duplicate entry texts break name uniqueness). -/
theorem C6_cartesian_expansion (ph : String → Nat) (k1 k2 m1 m2 m3 t1 t2 u1 u2 u3 w : String)
    (ht12 : t1 ≠ t2)
    (ht1u1 : t1 ≠ u1) (ht1u2 : t1 ≠ u2) (ht1u3 : t1 ≠ u3)
    (ht2u1 : t2 ≠ u1) (ht2u2 : t2 ≠ u2) (ht2u3 : t2 ≠ u3)
    (hu12 : u1 ≠ u2) (hu13 : u1 ≠ u3) (hu23 : u2 ≠ u3)
    (hk12 : k1 ≠ k2) (hm12 : m1 ≠ m2) (hm13 : m1 ≠ m3) (hm23 : m2 ≠ m3)
    (hsan : ∀ s ∈ [k1, k2, m1, m2, m3],
      sanitize_string s = s ∧ ¬ s.length > 32 ∧ '_' ∉ s.data) :
    (value_variations [("X", .multi [(k1, t1), (k2, t2)]), ("S", .scalar w),
        ("Y", .multi [(m1, u1), (m2, u2), (m3, u3)])]).1.length = 6 ∧
    value_variations [("X", .multi [(k1, t1), (k2, t2)]), ("S", .scalar w),
        ("Y", .multi [(m1, u1), (m2, u2), (m3, u3)])] =
      ([[("S", w), ("X", t1), ("Y", u1)], [("S", w), ("X", t1), ("Y", u2)],
        [("S", w), ("X", t1), ("Y", u3)], [("S", w), ("X", t2), ("Y", u1)],
        [("S", w), ("X", t2), ("Y", u2)], [("S", w), ("X", t2), ("Y", u3)]],
       ["X", "Y"],
       [(t1, k1), (u1, m1), (u2, m2), (u3, m3), (t2, k2)]) ∧
    (∀ va ∈ (value_variations [("X", .multi [(k1, t1), (k2, t2)]), ("S", .scalar w),
        ("Y", .multi [(m1, u1), (m2, u2), (m3, u3)])]).1, lookupD va "S" = some w) ∧
    ((value_variations [("X", .multi [(k1, t1), (k2, t2)]), ("S", .scalar w),
        ("Y", .multi [(m1, u1), (m2, u2), (m3, u3)])]).1.map (fun va =>
      name_for_variation ph va
        (value_variations [("X", .multi [(k1, t1), (k2, t2)]), ("S", .scalar w),
          ("Y", .multi [(m1, u1), (m2, u2), (m3, u3)])]).2.1
        (value_variations [("X", .multi [(k1, t1), (k2, t2)]), ("S", .scalar w),
          ("Y", .multi [(m1, u1), (m2, u2), (m3, u3)])]).2.2) =
      [k1 ++ "_" ++ m1, k1 ++ "_" ++ m2, k1 ++ "_" ++ m3,
       k2 ++ "_" ++ m1, k2 ++ "_" ++ m2, k2 ++ "_" ++ m3]) ∧
    [k1 ++ "_" ++ m1, k1 ++ "_" ++ m2, k1 ++ "_" ++ m3,
     k2 ++ "_" ++ m1, k2 ++ "_" ++ m2, k2 ++ "_" ++ m3].Nodup := by
  have hvv := value_variations_two_by_three k1 k2 m1 m2 m3 t1 t2 u1 u2 u3 w ht12 ht1u1 ht1u2 ht1u3 ht2u1
    ht2u2 ht2u3 hu12 hu13 hu23
  obtain ⟨hk1s, hk1l, hk1u⟩ := hsan k1 (by simp)
  obtain ⟨hk2s, hk2l, hk2u⟩ := hsan k2 (by simp)
  obtain ⟨hm1s, hm1l, hm1u⟩ := hsan m1 (by simp)
  obtain ⟨hm2s, hm2l, hm2u⟩ := hsan m2 (by simp)
  obtain ⟨hm3s, hm3l, hm3u⟩ := hsan m3 (by simp)
  refine ⟨by rw [hvv]; rfl, hvv, ?_, ?_, ?_⟩
  · rw [hvv]
    intro va hva
    simp only [List.mem_cons, List.not_mem_nil, or_false] at hva
    rcases hva with rfl | rfl | rfl | rfl | rfl | rfl <;> simp [lookupD]
  · rw [hvv]
    simp [name_for_variation, lookupD, intercalate_two,
      hk1s, hk2s, hm1s, hm2s, hm3s, hk1l, hk2l, hm1l, hm2l, hm3l,
      ht1u1, ht1u2, ht1u3, ht2u1, ht2u2, ht2u3, hu12, hu13, hu23, ht12,
      Ne.symm ht1u1, Ne.symm ht1u2, Ne.symm ht1u3, Ne.symm ht2u1, Ne.symm ht2u2,
      Ne.symm ht2u3, Ne.symm hu12, Ne.symm hu13, Ne.symm hu23, Ne.symm ht12]
  · simp only [List.nodup_cons, List.mem_cons, List.not_mem_nil, or_false, not_or,
      List.nodup_nil, and_true]
    refine ⟨⟨?_, ?_, ?_, ?_, ?_⟩, ⟨?_, ?_, ?_, ?_⟩, ⟨?_, ?_, ?_⟩, ⟨?_, ?_⟩, ?_⟩
    · exact join2_ne k1 m1 k1 m2 hk1u hk1u (Or.inr hm12)
    · exact join2_ne k1 m1 k1 m3 hk1u hk1u (Or.inr hm13)
    · exact join2_ne k1 m1 k2 m1 hk1u hk2u (Or.inl hk12)
    · exact join2_ne k1 m1 k2 m2 hk1u hk2u (Or.inl hk12)
    · exact join2_ne k1 m1 k2 m3 hk1u hk2u (Or.inl hk12)
    · exact join2_ne k1 m2 k1 m3 hk1u hk1u (Or.inr hm23)
    · exact join2_ne k1 m2 k2 m1 hk1u hk2u (Or.inl hk12)
    · exact join2_ne k1 m2 k2 m2 hk1u hk2u (Or.inl hk12)
    · exact join2_ne k1 m2 k2 m3 hk1u hk2u (Or.inl hk12)
    · exact join2_ne k1 m3 k2 m1 hk1u hk2u (Or.inl hk12)
    · exact join2_ne k1 m3 k2 m2 hk1u hk2u (Or.inl hk12)
    · exact join2_ne k1 m3 k2 m3 hk1u hk2u (Or.inl hk12)
    · exact join2_ne k2 m1 k2 m2 hk2u hk2u (Or.inr hm12)
    · exact join2_ne k2 m1 k2 m3 hk2u hk2u (Or.inr hm13)
    · exact ⟨join2_ne k2 m2 k2 m3 hk2u hk2u (Or.inr hm23), fun h => h⟩

/-- C6 counterexample: with `X` holding two entries whose full texts are
equal (short keys `a` and `b`, both with text `v`), expansion produces
6 variations but the short-name map collapses on the duplicated text,
so the variation names are not uniquely derived from the pair of short
keys: the name list has duplicates. -/
theorem C6_counterexample :
    (value_variations [("X", .multi [("a", "v"), ("b", "v")]),
        ("Y", .multi [("c", "1"), ("d", "2"), ("e", "3")])]).1.length = 6 ∧
    ¬ ((value_variations [("X", .multi [("a", "v"), ("b", "v")]),
        ("Y", .multi [("c", "1"), ("d", "2"), ("e", "3")])]).1.map (fun va =>
      name_for_variation phZero va
        (value_variations [("X", .multi [("a", "v"), ("b", "v")]),
          ("Y", .multi [("c", "1"), ("d", "2"), ("e", "3")])]).2.1
        (value_variations [("X", .multi [("a", "v"), ("b", "v")]),
          ("Y", .multi [("c", "1"), ("d", "2"), ("e", "3")])]).2.2)).Nodup := by
  decide

theorem C6_cartesian_witness :
    (value_variations [("X", .multi [("a", "v1"), ("b", "v2")]), ("S", .scalar "s"),
        ("Y", .multi [("c", "w1"), ("d", "w2"), ("e", "w3")])]).1.length = 6 ∧
    [("a" : String) ++ "_" ++ "c", "a" ++ "_" ++ "d", "a" ++ "_" ++ "e",
     "b" ++ "_" ++ "c", "b" ++ "_" ++ "d", "b" ++ "_" ++ "e"].Nodup :=
  (fun h => ⟨h.1, h.2.2.2.2⟩)
    (C6_cartesian_expansion phZero "a" "b" "c" "d" "e" "v1" "v2" "w1" "w2" "w3" "s"
      (by decide) (by decide) (by decide) (by decide) (by decide) (by decide) (by decide)
      (by decide) (by decide) (by decide) (by decide) (by decide) (by decide) (by decide)
      (by decide))
